import Mathlib

/-!
Verification development for the FormScanner document-extraction app
(`src/app.py`).  The Python helpers are shallowly embedded: strings become
`String`/`List Char`, the stdlib pieces the helpers call (`str.strip`,
`str.replace`, `str.split`, `json.loads`) are modelled character by
character, the external services (pdf2image, the Gemini model, Streamlit
widgets) become explicit environments, and the button handler becomes a
pure state-passing function.
-/

/-! ## Python string primitives -/

/-- The whitespace set of Python's `str.strip()` (ASCII part; the unicode
whitespace code points never occur in the texts handled here). -/
def pyIsSpace (c : Char) : Bool :=
  c == ' ' || c == '\t' || c == '\n' || c == '\r' || c == '\x0b' || c == '\x0c'

/-- Leading-whitespace removal, the first half of `str.strip()`. -/
def dropLead (s : List Char) : List Char := s.dropWhile pyIsSpace

/-- Trailing-whitespace removal, the second half of `str.strip()`. -/
def dropTrail (s : List Char) : List Char := (s.reverse.dropWhile pyIsSpace).reverse

/-- Python `str.strip()` on a character list. -/
def pyStripList (s : List Char) : List Char := dropTrail (dropLead s)

/-- Python `str.strip()`. -/
def pyStrip (s : String) : String := String.mk (pyStripList s.data)

/-- Python `str.split('\n')`: split at every newline, keeping empty pieces;
`"".split('\n') == ['']`. -/
def splitNlList : List Char → List (List Char)
  | [] => [[]]
  | '\n' :: rest => [] :: splitNlList rest
  | c :: rest =>
    match splitNlList rest with
    | [] => [[c]]
    | g :: gs => (c :: g) :: gs

/-- Fuel-indexed scanner of `str.replace(pat, "")`: at each position,
remove the pattern if it starts here and resume after it, else keep this
character.  Every step consumes at least one character, so fuel equal to
the input length is always enough. -/
def scrubGo : Nat → Char → List Char → List Char → List Char
  | 0, _, _, s => s
  | Nat.succ f, p0, ps, s =>
    match s with
    | [] => []
    | c :: cs =>
      if (p0 :: ps).isPrefixOf (c :: cs) then scrubGo f p0 ps (List.drop ps.length cs)
      else c :: scrubGo f p0 ps cs

/-- Python `s.replace(p0 :: ps, "")`: left-to-right, non-overlapping
removal of every occurrence of the (non-empty) pattern. -/
def scrub (p0 : Char) (ps : List Char) (s : List Char) : List Char :=
  scrubGo s.length p0 ps s

/-- `", ".join(fields)`, as in `analyze_document_with_gemini`. -/
def joinComma : List String → String
  | [] => ""
  | [x] => x
  | x :: xs => x ++ ", " ++ joinComma xs

/-! ## The JSON values produced by Python's `json.loads` -/

/-- The result of `json.loads`: a Python object built from dicts, lists,
strings, numbers (kept as their lexeme), booleans and `None`.  Numbers are
kept as the matched lexeme rather than converted to int/float; no claim
depends on numeric normalisation. -/
inductive PyJson where
  | obj (members : List (String × PyJson))
  | arr (elements : List PyJson)
  | str (s : String)
  | num (lexeme : String)
  | boolean (b : Bool)
  | null

/-- JSON insignificant whitespace (as in Python's `json` module). -/
def jsonWs (c : Char) : Bool :=
  c == ' ' || c == '\t' || c == '\n' || c == '\r'

/-- Hex digit value, for `\uXXXX` escapes. -/
def hexVal? (c : Char) : Option Nat :=
  if '0' ≤ c ∧ c ≤ '9' then some (c.toNat - '0'.toNat)
  else if 'a' ≤ c ∧ c ≤ 'f' then some (c.toNat - 'a'.toNat + 10)
  else if 'A' ≤ c ∧ c ≤ 'F' then some (c.toNat - 'A'.toNat + 10)
  else none

/-- Simple string escapes of JSON. -/
def escChar? (e : Char) : Option Char :=
  if e = '\x22' then some '\x22'
  else if e = '\\' then some '\\'
  else if e = '/' then some '/'
  else if e = 'b' then some '\x08'
  else if e = 'f' then some '\x0c'
  else if e = 'n' then some '\n'
  else if e = 'r' then some '\r'
  else if e = 't' then some '\t'
  else none

/-- Body of a JSON string literal, after the opening quote: returns the
decoded characters and the input after the closing quote.  Strict mode:
unescaped control characters are rejected.  (`\uXXXX` maps through
`Char.ofNat`; surrogate-pair recombination is not modelled — no text in
this development contains such escapes.) -/
def parseStringBody : List Char → Option (List Char × List Char)
  | [] => none
  | '\x22' :: rest => some ([], rest)
  | '\\' :: 'u' :: h1 :: h2 :: h3 :: h4 :: rest =>
    match hexVal? h1, hexVal? h2, hexVal? h3, hexVal? h4 with
    | some a, some b, some c, some d =>
      (parseStringBody rest).map
        (fun p => (Char.ofNat (((a * 16 + b) * 16 + c) * 16 + d) :: p.1, p.2))
    | _, _, _, _ => none
  | '\\' :: e :: rest =>
    match escChar? e with
    | some c => (parseStringBody rest).map (fun p => (c :: p.1, p.2))
    | none => none
  | c :: rest =>
    if c.toNat < 32 then none
    else (parseStringBody rest).map (fun p => (c :: p.1, p.2))

/-- Integer part of a JSON number: `0` or a nonzero digit followed by
digits (the `(?:0|[1-9]\d*)` of Python's number regex). -/
def parseIntPart : List Char → Option (List Char × List Char)
  | [] => none
  | '0' :: rest => some (['0'], rest)
  | c :: rest =>
    if c.isDigit then some (c :: rest.takeWhile Char.isDigit, rest.dropWhile Char.isDigit)
    else none

/-- Optional fraction part `(\.\d+)?`. -/
def parseFrac : List Char → List Char × List Char
  | '.' :: rest =>
    let ds := rest.takeWhile Char.isDigit
    if ds.isEmpty then ([], '.' :: rest)
    else ('.' :: ds, rest.dropWhile Char.isDigit)
  | s => ([], s)

/-- Optional exponent part `([eE][-+]?\d+)?`. -/
def parseExp : List Char → List Char × List Char
  | e :: s :: rest =>
    if e == 'e' || e == 'E' then
      if s == '+' || s == '-' then
        let ds := rest.takeWhile Char.isDigit
        if ds.isEmpty then ([], e :: s :: rest)
        else (e :: s :: ds, rest.dropWhile Char.isDigit)
      else
        let ds := (s :: rest).takeWhile Char.isDigit
        if ds.isEmpty then ([], e :: s :: rest)
        else (e :: ds, (s :: rest).dropWhile Char.isDigit)
    else ([], e :: s :: rest)
  | s => ([], s)

/-- A JSON number lexeme, including Python's `-Infinity` special case;
returns the lexeme and the rest of the input. -/
def parseNumber : List Char → Option (List Char × List Char)
  | '-' :: 'I' :: 'n' :: 'f' :: 'i' :: 'n' :: 'i' :: 't' :: 'y' :: r =>
    some ("-Infinity".data, r)
  | '-' :: rest =>
    (parseIntPart rest).map (fun p =>
      let fr := parseFrac p.2
      let ex := parseExp fr.2
      ('-' :: p.1 ++ fr.1 ++ ex.1, ex.2))
  | s =>
    (parseIntPart s).map (fun p =>
      let fr := parseFrac p.2
      let ex := parseExp fr.2
      (p.1 ++ fr.1 ++ ex.1, ex.2))

/-- Insert into a Python dict under construction: a repeated key updates
the value in place, keeping the first key's position (`dict(pairs)`). -/
def dictInsert (m : List (String × PyJson)) (k : String) (v : PyJson) :
    List (String × PyJson) :=
  match m with
  | [] => [(k, v)]
  | (k', v') :: rest => if k' = k then (k, v) :: rest else (k', v') :: dictInsert rest k v

mutual

/-- One JSON value, after optional whitespace; fuel-indexed recursive
descent mirroring Python's `json` scanner. -/
def parseValue : Nat → List Char → Option (PyJson × List Char)
  | 0, _ => none
  | Nat.succ fuel, s =>
    match List.dropWhile jsonWs s with
    | [] => none
    | '\x7b' :: rest => parseObjBody fuel rest
    | '[' :: rest => parseArrBody fuel rest
    | '\x22' :: rest =>
      (parseStringBody rest).map (fun p => (PyJson.str (String.mk p.1), p.2))
    | 't' :: 'r' :: 'u' :: 'e' :: rest => some (PyJson.boolean true, rest)
    | 'f' :: 'a' :: 'l' :: 's' :: 'e' :: rest => some (PyJson.boolean false, rest)
    | 'n' :: 'u' :: 'l' :: 'l' :: rest => some (PyJson.null, rest)
    | 'N' :: 'a' :: 'N' :: rest => some (PyJson.num "NaN", rest)
    | 'I' :: 'n' :: 'f' :: 'i' :: 'n' :: 'i' :: 't' :: 'y' :: rest =>
      some (PyJson.num "Infinity", rest)
    | s' => (parseNumber s').map (fun p => (PyJson.num (String.mk p.1), p.2))

/-- Object body, after the opening brace. -/
def parseObjBody : Nat → List Char → Option (PyJson × List Char)
  | 0, _ => none
  | Nat.succ fuel, s =>
    match List.dropWhile jsonWs s with
    | '\x7d' :: rest => some (PyJson.obj [], rest)
    | _ => parseMembers fuel s []

/-- Members of a non-empty object: `"key" : value` separated by commas. -/
def parseMembers : Nat → List Char → List (String × PyJson) →
    Option (PyJson × List Char)
  | 0, _, _ => none
  | Nat.succ fuel, s, acc =>
    match List.dropWhile jsonWs s with
    | '\x22' :: rest =>
      match parseStringBody rest with
      | none => none
      | some (kcs, r1) =>
        match List.dropWhile jsonWs r1 with
        | ':' :: r2 =>
          match parseValue fuel r2 with
          | none => none
          | some (v, r3) =>
            match List.dropWhile jsonWs r3 with
            | ',' :: r4 => parseMembers fuel r4 (dictInsert acc (String.mk kcs) v)
            | '\x7d' :: r4 => some (PyJson.obj (dictInsert acc (String.mk kcs) v), r4)
            | _ => none
        | _ => none
    | _ => none

/-- Array body, after the opening bracket. -/
def parseArrBody : Nat → List Char → Option (PyJson × List Char)
  | 0, _ => none
  | Nat.succ fuel, s =>
    match List.dropWhile jsonWs s with
    | ']' :: rest => some (PyJson.arr [], rest)
    | _ => parseElements fuel s []

/-- Elements of a non-empty array. -/
def parseElements : Nat → List Char → List PyJson → Option (PyJson × List Char)
  | 0, _, _ => none
  | Nat.succ fuel, s, acc =>
    match parseValue fuel s with
    | none => none
    | some (v, r1) =>
      match List.dropWhile jsonWs r1 with
      | ',' :: r2 => parseElements fuel r2 (acc ++ [v])
      | ']' :: r2 => some (PyJson.arr (acc ++ [v]), r2)
      | _ => none

end

/-- `json.loads`: parse one JSON value and require that only whitespace
follows; anything else raises `JSONDecodeError`, modelled as `none`.
The fuel `3 * length + 3` dominates the recursion depth (each nesting
level consumes at least two input characters and three fuel units). -/
def pyJsonLoads (s : String) : Option PyJson :=
  match parseValue (3 * s.length + 3) s.data with
  | some (v, rest) => if (List.dropWhile jsonWs rest).isEmpty then some v else none
  | none => none

/-! ## The extraction helper (`analyze_document_with_gemini`) -/

/-- A rasterized page, abstracted to an identity (the pixel contents never
matter to the glue logic). -/
structure Image where
  id : Nat
deriving DecidableEq

/-- Fixed prompt text before the interpolated field list. -/
def promptHead : String :=
  "\n    You are an expert document analysis AI. Your task is to analyze the provided image of a document and extract specific information.\n\n    **Instructions**:\n    1.  Carefully examine the document image.\n    2.  Extract the values for the following fields: **"

/-- Instruction 3 of the prompt. -/
def mandateJson : String :=
  "Your response **MUST** be a single, valid JSON object."

/-- Instruction 4 of the prompt. -/
def mandateKeys : String :=
  "The keys of the JSON object must exactly match the field names provided in the list."

/-- Instruction 5 of the prompt. -/
def mandateNA : String :=
  "If a value for a field cannot be found in the document, the corresponding value in the JSON object should be \"N/A\"."

/-- The worked example's field list line. -/
def exampleFieldsLine : String :=
  "**Example Request Fields**: [\"Invoice Number\", \"Customer Name\", \"Total Amount\"]"

/-- The worked example's JSON text, exactly as it appears in the prompt
(the `{{`/`}}` of the f-string denote literal braces). -/
def exampleJsonText : String :=
  "\x7b\n      \"Invoice Number\": \"INV-12345\",\n      \"Customer Name\": \"John Doe\",\n      \"Total Amount\": \"$999.99\"\n    \x7d"

/-- Fixed prompt text after the interpolated field list. -/
def promptTail : String :=
  "**\n    3.  " ++ mandateJson ++ "\n    4.  " ++ mandateKeys ++ "\n    5.  " ++
    mandateNA ++ "\n\n    " ++ exampleFieldsLine ++
    "\n    **Example JSON Response**:\n    " ++ exampleJsonText ++
    "\n\n    Now, analyze the provided image and extract the data for the requested fields.\n    "

/-- The f-string prompt of `analyze_document_with_gemini`:
`placeholders_str = ", ".join(_placeholders)` interpolated into the fixed
instruction text. -/
def buildPrompt (placeholders : List String) : String :=
  promptHead ++ joinComma placeholders ++ promptTail

/-- Outcome of `GEMINI_MODEL.generate_content` followed by `.text`:
either the response text, or an exception (network, quota, blocked
response, ...). -/
inductive ModelOutcome where
  | ok (text : String)
  | exn (msg : String)

/-- The external model: a response for each (prompt, image) request. -/
def ModelEnv : Type := String → Image → ModelOutcome

/-- The code-fence cleanup of the response text:
`response.text.strip().replace("```json", "").replace("```", "").strip()`. -/
def cleanList (s : List Char) : List Char :=
  pyStripList (scrub '\x60' "``".data (scrub '\x60' "``json".data (pyStripList s)))

/-- `cleanList` on strings. -/
def cleanResponse (t : String) : String := String.mk (cleanList t.data)

/-- Lines 71–73 of `app.py`: clean the response text, then `json.loads`. -/
def parse_model_text (t : String) : Option PyJson := pyJsonLoads (cleanResponse t)

/-- The reason an extraction attempt failed: the exception caught by the
`try` of `analyze_document_with_gemini`. -/
inductive ExtractionFailure where
  | transport (msg : String)
  | decode
deriving DecidableEq

/-- What the helper produced: its return value, and the `st.error` box it
showed (if any).  On any exception the helper shows
`f"Error during AI analysis: {e}"` and returns `None`. -/
structure AnalyzeOutput where
  value : Option PyJson
  shownError : Option ExtractionFailure

/-- `analyze_document_with_gemini`: build the prompt, send it with the
image, clean and `json.loads` the reply; any exception is caught, shown
via `st.error`, and turns the result into `None`. -/
def analyze_document_with_gemini (env : ModelEnv) (_image : Image)
    (_placeholders : List String) : AnalyzeOutput :=
  match env (buildPrompt _placeholders) _image with
  | ModelOutcome.exn e => ⟨none, some (ExtractionFailure.transport e)⟩
  | ModelOutcome.ok t =>
    match parse_model_text t with
    | some v => ⟨some v, none⟩
    | none => ⟨none, some ExtractionFailure.decode⟩

/-- Modelled from Streamlit semantics (not in `src/`): `st.cache_data`
excludes parameters whose names begin with an underscore from the cache
key.  `analyze_document_with_gemini` declares both `_image` and
`_placeholders` with the underscore, so its key is empty: there is one
cache slot, and any cached entry is returned for every later call,
whatever its arguments.  The pair returned is (call result, cache after
the call). -/
def cachedAnalyze (env : ModelEnv) (cache : Option AnalyzeOutput)
    (image : Image) (placeholders : List String) :
    AnalyzeOutput × Option AnalyzeOutput :=
  match cache with
  | some hit => (hit, some hit)
  | none =>
    (analyze_document_with_gemini env image placeholders,
     some (analyze_document_with_gemini env image placeholders))

/-! ## The rasterizer (`pdf_to_image`, second definition — the one in
effect; the first, `st.cache_data`-decorated definition at line 29 is
shadowed by this one at line 79) -/

/-- Outcome of `pdf2image.convert_from_bytes`: a list of page images, or
an exception. -/
inductive ConvertOutcome where
  | ok (images : List Image)
  | exn (msg : String)

/-- The rasterization backend: result of `convert_from_bytes(pdf_bytes,
first_page=f, last_page=l)`. -/
structure Backend where
  convert : List Nat → Nat → Nat → ConvertOutcome

/-- Modelled from the spec (the pdf2image backend is not in `src/`): on a
well-formed document with page list `pages`, the backend returns the
1-based inclusive range `[first, last]` of pages. -/
def pdfPageRange (pages : List Image) (first last : Nat) : List Image :=
  (pages.drop (first - 1)).take (last - first + 1)

/-- The effective `pdf_to_image` (line 79): ask the backend for the
1-based range `[page_number+1, page_number+1]`, return `images[0] if
images else None`; on exception, `print(f"Error: {e}")` to the console
and return `None`.  Second component: the console lines printed. -/
def pdf_to_image (be : Backend) (pdf_bytes : List Nat) (page_number : Nat) :
    Option Image × List String :=
  match be.convert pdf_bytes (page_number + 1) (page_number + 1) with
  | ConvertOutcome.ok images => (images.head?, [])
  | ConvertOutcome.exn e => (none, ["Error: " ++ e])

/-- Line 110: the 1-based page selector (`st.number_input`, min 1) is
translated by subtracting one. -/
def page_number_of_selector (k : Nat) : Nat := k - 1

/-! ## The button handler and session state -/

/-- `st.session_state.result` and `st.session_state.image_to_display`. -/
structure SessionState where
  result : Option PyJson
  image_to_display : Option Image

/-- Line 133: `[p.strip() for p in placeholders_text.strip().split('\n')
if p.strip()]`. -/
def parsePlaceholders (text : String) : List String :=
  ((splitNlList (pyStripList text.data)).map
    (fun l => String.mk (pyStripList l))).filter (fun p => p ≠ "")

/-- Everything one press of "Extract Information" produces: the new
session state, the `st.warning` boxes, the `st.error` box of the
extraction helper (if shown), the console prints, and how often each
helper ran. -/
structure ActionOutput where
  state : SessionState
  warnings : List String
  analysisErrorShown : Option ExtractionFailure
  consoleLines : List String
  rasterizeCalls : Nat
  analyzeCalls : Nat

/-- Lines 132–148 of `app.py`: the handler guarded by
`if extract_button and uploaded_file and placeholders_text:`.  Empty
placeholder list → warning only; rasterization failure → both state
fields cleared; otherwise the image is stored and the extraction result
(possibly `None`) overwrites `st.session_state.result`. -/
def run_extract_action (be : Backend) (env : ModelEnv) (st0 : SessionState)
    (extract_button : Bool) (uploaded_file : Option (List Nat))
    (page_number : Nat) (placeholders_text : String) : ActionOutput :=
  match extract_button, uploaded_file with
  | true, some pdf_bytes =>
    if placeholders_text = "" then ⟨st0, [], none, [], 0, 0⟩
    else
      let placeholders := parsePlaceholders placeholders_text
      if placeholders = [] then
        ⟨st0, ["Please define at least one placeholder."], none, [], 0, 0⟩
      else
        match pdf_to_image be pdf_bytes page_number with
        | (some image, console) =>
          let a := analyze_document_with_gemini env image placeholders
          ⟨⟨a.value, some image⟩, [], a.shownError, console, 1, 1⟩
        | (none, console) =>
          ⟨⟨none, none⟩, [], none, console, 1, 0⟩
  | _, _ => ⟨st0, [], none, [], 0, 0⟩

/-! ## Result rendering (lines 152–165) -/

/-- Python truthiness of a parsed JSON value (`if st.session_state.result:`).
A number is falsy exactly when its mantissa digits are all zero. -/
def pyTruthy : PyJson → Bool
  | PyJson.obj ms => !ms.isEmpty
  | PyJson.arr es => !es.isEmpty
  | PyJson.str s => !(s = "")
  | PyJson.num lex =>
    !((lex.data.takeWhile (fun c => !(c == 'e' || c == 'E'))).filter
        (fun c => !(c == '-' || c == '.'))).all (fun c => c == '0')
  | PyJson.boolean b => b
  | PyJson.null => false

/-- What the results column does with the stored result. -/
inductive RenderOutcome where
  | skipped
  | rendered (fields : List (String × PyJson))
  | crashed

/-- Lines 152–165: a falsy (or absent) result shows nothing; a truthy
dict is iterated with `.items()` into one read-only text input per key;
`.items()` on any non-dict raises `AttributeError` and the script run
crashes. -/
def renderResults : Option PyJson → RenderOutcome
  | none => RenderOutcome.skipped
  | some v =>
    if pyTruthy v then
      match v with
      | PyJson.obj ms => RenderOutcome.rendered ms
      | _ => RenderOutcome.crashed
    else RenderOutcome.skipped

/-! ## Substring occurrence and pattern occurrence, as predicates -/

/-- `needle` occurs verbatim (as a contiguous substring) in `hay`. -/
def strOccurs (needle hay : String) : Prop :=
  ∃ a b : List Char, hay.data = a ++ needle.data ++ b

/-- `pat` occurs as a contiguous sublist of `s`. -/
def OccursIn (pat s : List Char) : Prop := ∃ a b, s = a ++ pat ++ b

/-- Every occurrence of `pat` in `X ++ S` lies wholly inside `X` or starts
at or after the boundary. -/
def NoCross (pat X S : List Char) : Prop :=
  ∀ a b, X ++ S = a ++ pat ++ b → a.length + pat.length ≤ X.length ∨ X.length ≤ a.length

/-! ## Concrete environments used by witnesses and counterexamples -/

/-- A backend whose `convert_from_bytes` raises (e.g. corrupt file or
missing poppler). -/
def failingBackend : Backend :=
  ⟨fun _ _ _ => ConvertOutcome.exn "Unable to get page count. Is poppler installed and in PATH?"⟩

/-- A backend that always renders one fixed page. -/
def okBackend : Backend := ⟨fun _ _ _ => ConvertOutcome.ok [⟨3⟩]⟩

/-- A model call that fails in transport. -/
def exnModel : ModelEnv := fun _ _ => ModelOutcome.exn "network unreachable"

/-- A model that answers with plain prose (not JSON). -/
def proseModel : ModelEnv := fun _ _ => ModelOutcome.ok "Sorry, the document is unreadable."

/-- A model that answers with an empty text. -/
def emptyModel : ModelEnv := fun _ _ => ModelOutcome.ok ""

/-- A model that answers with a JSON array. -/
def arrayModel : ModelEnv := fun _ _ => ModelOutcome.ok "[\x22a\x22]"

/-- A model that answers `{"Invoice Number": "INV-1"}`. -/
def invoiceModel : ModelEnv := fun _ _ => ModelOutcome.ok "\x7b\"Invoice Number\": \"INV-1\"\x7d"

/-- A model that answers `{"Total Amount": "$5"}`. -/
def totalModel : ModelEnv := fun _ _ => ModelOutcome.ok "\x7b\"Total Amount\": \"$5\"\x7d"

/-! ## String facts -/

/-- `(s ++ t).data` unfolds to the concatenation of the data. -/
theorem strDataAppend (s t : String) : (s ++ t).data = s.data ++ t.data := rfl

theorem strOccurs_self (n : String) : strOccurs n n := ⟨[], [], by simp⟩

theorem strOccurs_append_right (x : String) {n h : String} (hx : strOccurs n h) :
    strOccurs n (x ++ h) := by
  obtain ⟨a, b, hab⟩ := hx
  exact ⟨x.data ++ a, b, by simp [strDataAppend, hab, List.append_assoc]⟩

theorem strOccurs_append_left (y : String) {n h : String} (hx : strOccurs n h) :
    strOccurs n (h ++ y) := by
  obtain ⟨a, b, hab⟩ := hx
  exact ⟨a, b ++ y.data, by simp [strDataAppend, hab, List.append_assoc]⟩

theorem joinComma_cons₂ (x y : String) (ys : List String) :
    joinComma (x :: y :: ys) = x ++ ", " ++ joinComma (y :: ys) := rfl

/-- Every member of the field list appears verbatim in `", ".join(fields)`. -/
theorem joinComma_mem_occurs {f : String} {fields : List String} (hf : f ∈ fields) :
    strOccurs f (joinComma fields) := by
  induction fields with
  | nil => cases hf
  | cons x xs ih =>
    cases xs with
    | nil =>
      have hfx : f = x := by simpa using hf
      subst hfx
      exact strOccurs_self f
    | cons y ys =>
      rcases List.mem_cons.mp hf with hfx | hmem
      · subst hfx
        rw [joinComma_cons₂]
        exact strOccurs_append_left _ (strOccurs_append_left _ (strOccurs_self f))
      · rw [joinComma_cons₂]
        exact strOccurs_append_right _ (ih hmem)

/-! ## Lemmas about `scrub` (`str.replace(pat, "")`) -/

theorem scrubGo_nil (f : Nat) (p0 : Char) (ps : List Char) : scrubGo f p0 ps [] = [] := by
  cases f <;> rfl

/-- Any sufficient fuel computes the same scrub. -/
theorem scrubGo_fuel : ∀ (n : Nat) (s : List Char), s.length ≤ n →
    ∀ (f : Nat), s.length ≤ f → ∀ (p0 : Char) (ps : List Char),
    scrubGo n p0 ps s = scrubGo f p0 ps s := by
  intro n
  induction n with
  | zero =>
    intro s hs f hf p0 ps
    have hnil : s = [] := List.eq_nil_of_length_eq_zero (Nat.le_zero.mp hs)
    subst hnil
    rw [scrubGo_nil, scrubGo_nil]
  | succ n ih =>
    intro s hs f hf p0 ps
    cases s with
    | nil => rw [scrubGo_nil, scrubGo_nil]
    | cons c cs =>
      cases f with
      | zero => simp at hf
      | succ f' =>
        simp only [scrubGo]
        by_cases h : (p0 :: ps).isPrefixOf (c :: cs) = true
        · rw [if_pos h, if_pos h]
          have hlen : (List.drop ps.length cs).length ≤ cs.length := by
            rw [List.length_drop]; omega
          have hcs : cs.length ≤ n := by
            simp only [List.length_cons] at hs; omega
          have hcs' : cs.length ≤ f' := by
            simp only [List.length_cons] at hf; omega
          exact ih _ (le_trans hlen hcs) _ (le_trans hlen hcs') p0 ps
        · rw [if_neg h, if_neg h]
          have hcs : cs.length ≤ n := by
            simp only [List.length_cons] at hs; omega
          have hcs' : cs.length ≤ f' := by
            simp only [List.length_cons] at hf; omega
          rw [ih cs hcs f' hcs' p0 ps]

theorem scrub_nil (p0 : Char) (ps : List Char) : scrub p0 ps [] = [] := rfl

theorem scrub_cons_pos {p0 : Char} {ps : List Char} {c : Char} {cs : List Char}
    (h : (p0 :: ps).isPrefixOf (c :: cs) = true) :
    scrub p0 ps (c :: cs) = scrub p0 ps (List.drop ps.length cs) := by
  unfold scrub
  rw [List.length_cons]
  simp only [scrubGo, if_pos h]
  have hlen : (List.drop ps.length cs).length ≤ cs.length := by
    rw [List.length_drop]; omega
  exact scrubGo_fuel cs.length _ hlen _ le_rfl p0 ps

theorem scrub_cons_neg {p0 : Char} {ps : List Char} {c : Char} {cs : List Char}
    (h : ¬ (p0 :: ps).isPrefixOf (c :: cs) = true) :
    scrub p0 ps (c :: cs) = c :: scrub p0 ps cs := by
  unfold scrub
  rw [List.length_cons]
  simp only [scrubGo, if_neg h]

theorem scrub_head_ne {p0 : Char} {ps : List Char} {c : Char} {cs : List Char}
    (h : c ≠ p0) : scrub p0 ps (c :: cs) = c :: scrub p0 ps cs := by
  apply scrub_cons_neg
  intro hp
  obtain ⟨t, ht⟩ := List.isPrefixOf_iff_prefix.mp hp
  have : p0 = c := by
    have := congrArg (fun l => l.head?) ht
    simpa using this
  exact h this.symm

theorem scrub_append_pat (p0 : Char) (ps t : List Char) :
    scrub p0 ps ((p0 :: ps) ++ t) = scrub p0 ps t := by
  have h : (p0 :: ps).isPrefixOf (p0 :: (ps ++ t)) = true :=
    List.isPrefixOf_iff_prefix.mpr ⟨t, by simp⟩
  calc scrub p0 ps ((p0 :: ps) ++ t)
      = scrub p0 ps (p0 :: (ps ++ t)) := by simp
    _ = scrub p0 ps (List.drop ps.length (ps ++ t)) := scrub_cons_pos h
    _ = scrub p0 ps t := by rw [List.drop_left]

/-! ## Occurrences of a pattern -/

theorem occursIn_length {pat s : List Char} (h : OccursIn pat s) : pat.length ≤ s.length := by
  obtain ⟨a, b, rfl⟩ := h
  simp
  omega

theorem occursIn_cons {pat s : List Char} (c : Char) (h : OccursIn pat s) :
    OccursIn pat (c :: s) := by
  obtain ⟨a, b, rfl⟩ := h
  exact ⟨c :: a, b, by simp⟩

theorem occursIn_head_mem {p0 : Char} {ps s : List Char} (h : OccursIn (p0 :: ps) s) :
    p0 ∈ s := by
  obtain ⟨a, b, rfl⟩ := h
  simp

/-- A string with no occurrence of the pattern is left unchanged. -/
theorem scrub_of_not_occursIn {p0 : Char} {ps : List Char} :
    ∀ {s : List Char}, ¬ OccursIn (p0 :: ps) s → scrub p0 ps s = s := by
  intro s
  induction s with
  | nil => intro _; rfl
  | cons c cs ih =>
    intro h
    have hpre : ¬ (p0 :: ps).isPrefixOf (c :: cs) = true := by
      intro hp
      obtain ⟨t, ht⟩ := List.isPrefixOf_iff_prefix.mp hp
      exact h ⟨[], t, by simp [← ht]⟩
    rw [scrub_cons_neg hpre, ih (fun hocc => h (occursIn_cons c hocc))]

/-! ## Scrubbing a concatenation when no occurrence crosses the boundary -/

/-- When no occurrence of the pattern crosses the boundary, the
left-to-right scan decomposes over the concatenation. -/
theorem scrub_append_nocross : ∀ (n : Nat) (X : List Char), X.length ≤ n →
    ∀ (S : List Char) (p0 : Char) (ps : List Char), NoCross (p0 :: ps) X S →
    scrub p0 ps (X ++ S) = scrub p0 ps X ++ scrub p0 ps S := by
  intro n
  induction n with
  | zero =>
    intro X hX S p0 ps _
    have hnil : X = [] := List.eq_nil_of_length_eq_zero (Nat.le_zero.mp hX)
    subst hnil
    simp [scrub_nil]
  | succ n ih =>
    intro X hX S p0 ps hnc
    cases X with
    | nil => simp [scrub_nil]
    | cons x X' =>
      by_cases hp : (p0 :: ps).isPrefixOf ((x :: X') ++ S) = true
      · -- the pattern matches right at the front, and cannot cross
        obtain ⟨t, ht⟩ := List.isPrefixOf_iff_prefix.mp hp
        have hocc0 : (x :: X') ++ S = [] ++ (p0 :: ps) ++ t := by simp [← ht]
        have hlen : (p0 :: ps).length ≤ (x :: X').length := by
          rcases hnc [] t hocc0 with h | h
          · simpa using h
          · simp at h
        have hpreX : (p0 :: ps) <+: (x :: X') := by
          have h1 : (p0 :: ps) = ((x :: X') ++ S).take (p0 :: ps).length :=
            List.prefix_iff_eq_take.mp ⟨t, ht⟩
          have h2 : ((x :: X') ++ S).take (p0 :: ps).length
              = (x :: X').take (p0 :: ps).length :=
            List.take_append_of_le_length hlen
          exact List.prefix_iff_eq_take.mpr (h1.trans h2)
        obtain ⟨Xr, hXr⟩ := hpreX
        have hX' : (x :: X') = (p0 :: ps) ++ Xr := hXr.symm
        have hlenXr : Xr.length ≤ n := by
          have := congrArg List.length hX'
          simp only [List.length_append, List.length_cons] at this hX ⊢
          omega
        have hSide : scrub p0 ps ((x :: X') ++ S) = scrub p0 ps (Xr ++ S) := by
          rw [hX', List.append_assoc, scrub_append_pat]
        have hXside : scrub p0 ps (x :: X') = scrub p0 ps Xr := by
          rw [hX', scrub_append_pat]
        have hnc' : NoCross (p0 :: ps) Xr S := by
          intro a b hab
          have hh : (x :: X') ++ S = ((p0 :: ps) ++ a) ++ (p0 :: ps) ++ b := by
            rw [hX', List.append_assoc, hab]
            simp [List.append_assoc]
          have hXlen := congrArg List.length hX'
          rcases hnc ((p0 :: ps) ++ a) b hh with h | h
          · left
            simp only [List.length_append, List.length_cons] at hXlen h ⊢
            omega
          · right
            simp only [List.length_append, List.length_cons] at hXlen h ⊢
            omega
        rw [hSide, hXside, ih Xr hlenXr S p0 ps hnc']
      · -- no match at this position: keep the head on both sides
        have hpX : ¬ (p0 :: ps).isPrefixOf (x :: X') = true := by
          intro hq
          obtain ⟨t, ht⟩ := List.isPrefixOf_iff_prefix.mp hq
          exact hp (List.isPrefixOf_iff_prefix.mpr
            (List.IsPrefix.trans ⟨t, ht⟩ ⟨S, rfl⟩))
        have hnc' : NoCross (p0 :: ps) X' S := by
          intro a b hab
          have hh : (x :: X') ++ S = (x :: a) ++ (p0 :: ps) ++ b := by
            simp [hab]
          rcases hnc (x :: a) b hh with h | h
          · left; simp only [List.length_cons] at h ⊢; omega
          · right; simp only [List.length_cons] at h ⊢; omega
        have hX'n : X'.length ≤ n := by
          simp only [List.length_cons] at hX; omega
        calc scrub p0 ps ((x :: X') ++ S)
            = scrub p0 ps (x :: (X' ++ S)) := rfl
          _ = x :: scrub p0 ps (X' ++ S) := scrub_cons_neg hp
          _ = x :: (scrub p0 ps X' ++ scrub p0 ps S) := by rw [ih X' hX'n S p0 ps hnc']
          _ = scrub p0 ps (x :: X') ++ scrub p0 ps S := by rw [scrub_cons_neg hpX]; rfl

/-- If the first character after the boundary does not appear in the
pattern, no occurrence can cross the boundary. -/
theorem noCross_of_not_mem {pat : List Char} {x : Char} (hx : x ∉ pat)
    (X T : List Char) : NoCross pat X (x :: T) := by
  intro a b hab
  by_contra hc
  push_neg at hc
  obtain ⟨hb, h2⟩ := hc
  have ha : a.length ≤ X.length := Nat.le_of_lt h2
  have hk : X.length - a.length < pat.length := by omega
  have hv1 : (X ++ x :: T)[X.length]? = some x := by
    rw [List.getElem?_append_right le_rfl]
    simp
  have hab' : X ++ x :: T = a ++ (pat ++ b) := by rw [hab, List.append_assoc]
  have hv2 : (a ++ (pat ++ b))[X.length]? = pat[X.length - a.length]? := by
    rw [List.getElem?_append_right ha, List.getElem?_append_left hk]
  have hsome : pat[X.length - a.length]? = some x := by
    rw [← hv2, ← hab', hv1]
  obtain ⟨hlt, hval⟩ := List.getElem?_eq_some.mp hsome
  exact hx (hval ▸ List.getElem_mem hlt)

/-- Characters that can never start the pattern pass through unchanged. -/
theorem scrub_prepend_no_head {p0 : Char} {ps : List Char} :
    ∀ {V : List Char}, (∀ c ∈ V, c ≠ p0) →
    ∀ t, scrub p0 ps (V ++ t) = V ++ scrub p0 ps t := by
  intro V
  induction V with
  | nil => intro _ t; rfl
  | cons v V' ih =>
    intro hV t
    have hv : v ≠ p0 := hV v (List.mem_cons_self v V')
    calc scrub p0 ps ((v :: V') ++ t)
        = scrub p0 ps (v :: (V' ++ t)) := rfl
      _ = v :: scrub p0 ps (V' ++ t) := scrub_head_ne hv
      _ = v :: (V' ++ scrub p0 ps t) := by
          rw [ih (fun c hc => hV c (List.mem_cons_of_mem v hc)) t]
      _ = (v :: V') ++ scrub p0 ps t := rfl

/-! ## Lemmas about `str.strip()` -/

theorem dropWhile_append_all {p : Char → Bool} :
    ∀ {V : List Char}, (∀ c ∈ V, p c = true) →
    ∀ t, List.dropWhile p (V ++ t) = List.dropWhile p t := by
  intro V
  induction V with
  | nil => intro _ t; rfl
  | cons v V' ih =>
    intro hV t
    have hv : p v = true := hV v (List.mem_cons_self v V')
    calc List.dropWhile p ((v :: V') ++ t)
        = List.dropWhile p (V' ++ t) := by
          simp only [List.cons_append, List.dropWhile_cons, hv, if_true]
      _ = List.dropWhile p t := ih (fun c hc => hV c (List.mem_cons_of_mem v hc)) t

theorem dropLead_cons_of_space {w : Char} {t : List Char} (hw : pyIsSpace w = true) :
    dropLead (w :: t) = dropLead t := by
  simp only [dropLead, List.dropWhile_cons, hw, if_true]

theorem dropLead_cons_of_not {w : Char} {t : List Char} (hw : pyIsSpace w = false) :
    dropLead (w :: t) = w :: t := by
  simp only [dropLead, List.dropWhile_cons, hw]
  simp

theorem dropTrail_append_sp {W : List Char} (hW : ∀ c ∈ W, pyIsSpace c = true)
    (u : List Char) : dropTrail (u ++ W) = dropTrail u := by
  unfold dropTrail
  rw [List.reverse_append]
  rw [dropWhile_append_all (fun c hc => hW c (List.mem_reverse.mp hc)) u.reverse]

theorem pyStrip_sp_left {W : List Char} (hW : ∀ c ∈ W, pyIsSpace c = true)
    (s : List Char) : pyStripList (W ++ s) = pyStripList s := by
  unfold pyStripList
  rw [show dropLead (W ++ s) = dropLead s from dropWhile_append_all hW s]

theorem pyStrip_sp_right {W : List Char} (hW : ∀ c ∈ W, pyIsSpace c = true) :
    ∀ s : List Char, pyStripList (s ++ W) = pyStripList s := by
  intro s
  induction s with
  | nil =>
    simp only [List.nil_append]
    have h0 : dropLead W = dropLead [] := by
      unfold dropLead
      rw [← List.append_nil W]
      exact dropWhile_append_all hW []
    unfold pyStripList
    rw [h0]
  | cons c cs ih =>
    by_cases hc : pyIsSpace c = true
    · calc pyStripList ((c :: cs) ++ W)
          = dropTrail (dropLead (c :: (cs ++ W))) := rfl
        _ = dropTrail (dropLead (cs ++ W)) := by rw [dropLead_cons_of_space hc]
        _ = pyStripList (cs ++ W) := rfl
        _ = pyStripList cs := ih
        _ = dropTrail (dropLead (c :: cs)) := by
            unfold pyStripList
            rw [dropLead_cons_of_space hc]
        _ = pyStripList (c :: cs) := rfl
    · have hc' : pyIsSpace c = false := Bool.not_eq_true _ ▸ eq_false_of_ne_true hc
      calc pyStripList ((c :: cs) ++ W)
          = dropTrail (dropLead (c :: (cs ++ W))) := rfl
        _ = dropTrail (c :: (cs ++ W)) := by rw [dropLead_cons_of_not hc']
        _ = dropTrail ((c :: cs) ++ W) := rfl
        _ = dropTrail (c :: cs) := dropTrail_append_sp hW (c :: cs)
        _ = dropTrail (dropLead (c :: cs)) := by rw [dropLead_cons_of_not hc']
        _ = pyStripList (c :: cs) := rfl

theorem dropTrail_concat_of_not {d : Char} {u : List Char} (hd : pyIsSpace d = false) :
    dropTrail (u ++ [d]) = u ++ [d] := by
  unfold dropTrail
  rw [List.reverse_append]
  simp only [List.reverse_cons, List.reverse_nil, List.nil_append, List.singleton_append,
    List.dropWhile_cons, hd]
  simp

/-- A list with non-space first and last characters is unchanged by strip. -/
theorem pyStrip_of_ends {c d : Char} (hc : pyIsSpace c = false) (hd : pyIsSpace d = false)
    (u : List Char) : pyStripList (c :: (u ++ [d])) = c :: (u ++ [d]) := by
  unfold pyStripList
  rw [dropLead_cons_of_not hc]
  rw [show c :: (u ++ [d]) = (c :: u) ++ [d] from rfl]
  exact dropTrail_concat_of_not hd

/-- Decompose any list into all-space margins around its stripped core. -/
theorem exists_strip_decomp (s : List Char) :
    ∃ WL WR : List Char, (∀ c ∈ WL, pyIsSpace c = true) ∧
      (∀ c ∈ WR, pyIsSpace c = true) ∧ s = WL ++ (pyStripList s ++ WR) := by
  refine ⟨s.takeWhile pyIsSpace, ((dropLead s).reverse.takeWhile pyIsSpace).reverse,
    ?_, ?_, ?_⟩
  · intro c hc
    exact List.mem_takeWhile_imp hc
  · intro c hc
    exact List.mem_takeWhile_imp (List.mem_reverse.mp hc)
  · have h1 : s = s.takeWhile pyIsSpace ++ dropLead s :=
      (List.takeWhile_append_dropWhile pyIsSpace s).symm
    have h2 : pyStripList s ++ ((dropLead s).reverse.takeWhile pyIsSpace).reverse
        = dropLead s := by
      unfold pyStripList dropTrail
      rw [← List.reverse_append, List.takeWhile_append_dropWhile, List.reverse_reverse]
    rw [h2]
    exact h1

/-! ## The code-fence cleanup on fenced inputs -/

theorem p1_chars_not_space : ∀ c ∈ ('\x60' :: "``json".data), pyIsSpace c = false := by
  decide

theorem p2_chars_not_space : ∀ c ∈ ('\x60' :: "``".data), pyIsSpace c = false := by
  decide

theorem not_mem_of_space {pat : List Char} (hall : ∀ c ∈ pat, pyIsSpace c = false)
    {x : Char} (hx : pyIsSpace x = true) : x ∉ pat := by
  intro hmem
  exact Bool.noConfusion ((hall x hmem).symm.trans hx)

theorem ne_head_of_space {p0 : Char} (hp0 : pyIsSpace p0 = false)
    {c : Char} (hc : pyIsSpace c = true) : c ≠ p0 := by
  intro he
  subst he
  exact Bool.noConfusion (hp0.symm.trans hc)

/-- Scrubbing ignores all-whitespace margins (the pattern contains no
whitespace characters). -/
theorem scrub_space_margins {p0 : Char} {ps : List Char}
    (hpat : ∀ c ∈ (p0 :: ps), pyIsSpace c = false)
    {WL WR : List Char} (hWL : ∀ c ∈ WL, pyIsSpace c = true)
    (hWR : ∀ c ∈ WR, pyIsSpace c = true) (S : List Char) :
    scrub p0 ps (WL ++ (S ++ WR)) = WL ++ (scrub p0 ps S ++ WR) := by
  have hp0 : pyIsSpace p0 = false := hpat p0 (List.mem_cons_self p0 ps)
  rw [scrub_prepend_no_head (fun c hc => ne_head_of_space hp0 (hWL c hc)) (S ++ WR)]
  congr 1
  cases WR with
  | nil => simp
  | cons w WR' =>
    rw [scrub_append_nocross S.length S le_rfl (w :: WR') p0 ps
      (noCross_of_not_mem (not_mem_of_space hpat (hWR w (List.mem_cons_self w WR'))) S WR')]
    congr 1
    exact scrub_of_not_occursIn (fun hocc =>
      Bool.noConfusion (hp0.symm.trans (hWR p0 (occursIn_head_mem hocc))))

/-- The inner `strip()` of the cleanup is redundant: cleaning equals
scrubbing the raw text and stripping once at the end. -/
theorem cleanList_eq_noStrip (J : List Char) :
    cleanList J
      = pyStripList (scrub '\x60' "``".data (scrub '\x60' "``json".data J)) := by
  obtain ⟨WL, WR, hWL, hWR, hdec⟩ := exists_strip_decomp J
  unfold cleanList
  conv_rhs => rw [hdec]
  rw [scrub_space_margins p1_chars_not_space hWL hWR,
      scrub_space_margins p2_chars_not_space hWL hWR,
      pyStrip_sp_left hWL, pyStrip_sp_right hWR]

theorem nl_space : ∀ c ∈ ['\n'], pyIsSpace c = true := by decide

/-- Scrubbing the json-fence pattern through `'\n' ++ J ++ "\n```"` only
touches `J`. -/
theorem scrub1_nl_tail (J : List Char) :
    scrub '\x60' "``json".data ('\n' :: (J ++ "\n```".data))
      = '\n' :: (scrub '\x60' "``json".data J ++ "\n```".data) := by
  rw [scrub_head_ne (by decide)]
  have hsplit : ("\n```".data : List Char) = '\n' :: "```".data := by decide
  rw [hsplit]
  rw [scrub_append_nocross J.length J le_rfl _ _ _
    (noCross_of_not_mem (by decide) J "```".data)]
  rfl

/-- Scrubbing the plain fence through `'\n' ++ Z ++ "\n```"` removes the
closing fence. -/
theorem scrub2_nl_wrap (Z : List Char) :
    scrub '\x60' "``".data ('\n' :: (Z ++ "\n```".data))
      = '\n' :: (scrub '\x60' "``".data Z ++ ['\n']) := by
  rw [scrub_head_ne (by decide)]
  have hsplit : ("\n```".data : List Char) = '\n' :: "```".data := by decide
  rw [hsplit]
  rw [scrub_append_nocross Z.length Z le_rfl _ _ _
    (noCross_of_not_mem (by decide) Z "```".data)]
  have h3 : scrub '\x60' "``".data ('\n' :: "```".data) = ['\n'] := by
    rw [scrub_head_ne (by decide)]
    have h4 : ("```".data : List Char) = ('\x60' :: "``".data) ++ [] := by decide
    rw [h4, scrub_append_pat]
    rfl
  rw [h3]

/-- Cleanup of a ```json-fenced text equals cleanup of the bare text. -/
theorem cleanList_wrap_json (J : List Char) :
    cleanList ("```json\n".data ++ (J ++ "\n```".data)) = cleanList J := by
  rw [cleanList_eq_noStrip, cleanList_eq_noStrip J]
  have e1 : ("```json\n".data : List Char) ++ (J ++ "\n```".data)
      = ('\x60' :: "``json".data) ++ ('\n' :: (J ++ "\n```".data)) := by
    have h : ("```json\n".data : List Char) = ('\x60' :: "``json".data) ++ ['\n'] := by
      decide
    rw [h, List.append_assoc]
    rfl
  rw [e1, scrub_append_pat, scrub1_nl_tail, scrub2_nl_wrap]
  have e2 : ('\n' :: (scrub '\x60' "``".data (scrub '\x60' "``json".data J) ++ ['\n']))
      = ['\n'] ++ ((scrub '\x60' "``".data (scrub '\x60' "``json".data J)) ++ ['\n']) := rfl
  rw [e2, pyStrip_sp_left nl_space, pyStrip_sp_right nl_space]

/-- Cleanup of a plain-fenced text equals cleanup of the bare text. -/
theorem cleanList_wrap_plain (J : List Char) :
    cleanList ("```\n".data ++ (J ++ "\n```".data)) = cleanList J := by
  rw [cleanList_eq_noStrip, cleanList_eq_noStrip J]
  have e1 : ("```\n".data : List Char) ++ (J ++ "\n```".data)
      = "```".data ++ ('\n' :: (J ++ "\n```".data)) := by
    have h : ("```\n".data : List Char) = "```".data ++ ['\n'] := by decide
    rw [h, List.append_assoc]
    rfl
  rw [e1]
  rw [scrub_append_nocross ("```".data).length "```".data le_rfl _ _ _
    (noCross_of_not_mem (by decide) "```".data (J ++ "\n```".data))]
  have hfix : scrub '\x60' "``json".data "```".data = "```".data :=
    scrub_of_not_occursIn (fun hocc => absurd (occursIn_length hocc) (by decide))
  rw [hfix, scrub1_nl_tail]
  have hP2 : ("```".data : List Char) = '\x60' :: "``".data := by decide
  rw [hP2]
  rw [show ('\x60' :: "``".data) ++ ('\n' :: (scrub '\x60' "``json".data J ++ "\n```".data))
        = ('\x60' :: "``".data) ++ ('\n' :: (scrub '\x60' "``json".data J ++ "\n```".data))
      from rfl]
  rw [scrub_append_pat, scrub2_nl_wrap]
  have e2 : ('\n' :: (scrub '\x60' "``".data (scrub '\x60' "``json".data J) ++ ['\n']))
      = ['\n'] ++ ((scrub '\x60' "``".data (scrub '\x60' "``json".data J)) ++ ['\n']) := rfl
  rw [e2, pyStrip_sp_left nl_space, pyStrip_sp_right nl_space]

/-- C3: a model reply wrapped in surrounding code-fence markers (```` ```json ````
or ```` ``` ````) is cleaned and parsed to exactly the same result as the
unwrapped reply. -/
theorem code_fence_wrapping_preserves_parse (j : String) :
    parse_model_text ("```json\n" ++ j ++ "\n```") = parse_model_text j ∧
    parse_model_text ("```\n" ++ j ++ "\n```") = parse_model_text j := by
  constructor
  · have hd : ("```json\n" ++ j ++ "\n```").data
        = "```json\n".data ++ (j.data ++ "\n```".data) := by
      rw [strDataAppend, strDataAppend, List.append_assoc]
    have hc : cleanList (("```json\n" ++ j ++ "\n```").data) = cleanList j.data := by
      rw [hd]
      exact cleanList_wrap_json j.data
    exact congrArg (fun L => pyJsonLoads (String.mk L)) hc
  · have hd : ("```\n" ++ j ++ "\n```").data
        = "```\n".data ++ (j.data ++ "\n```".data) := by
      rw [strDataAppend, strDataAppend, List.append_assoc]
    have hc : cleanList (("```\n" ++ j ++ "\n```").data) = cleanList j.data := by
      rw [hd]
      exact cleanList_wrap_plain j.data
    exact congrArg (fun L => pyJsonLoads (String.mk L)) hc

/-! ## C1: the prompt lists the fields and the mandates -/

/-- C1: for every non-empty list of field names, the prompt built by
`analyze_document_with_gemini` contains every requested field name
verbatim, contains the instruction that the response must be a single
valid JSON object whose keys exactly match the field names, contains the
"N/A" sentinel instruction, and contains the fixed worked example (field
set Invoice Number / Customer Name / Total Amount with its JSON). -/
theorem prompt_lists_fields_and_mandates (fields : List String) (hne : fields ≠ []) :
    (∀ f ∈ fields, strOccurs f (buildPrompt fields)) ∧
    strOccurs mandateJson (buildPrompt fields) ∧
    strOccurs mandateKeys (buildPrompt fields) ∧
    strOccurs mandateNA (buildPrompt fields) ∧
    strOccurs exampleFieldsLine (buildPrompt fields) ∧
    strOccurs exampleJsonText (buildPrompt fields) := by
  have htail : ∀ n : String, strOccurs n promptTail → strOccurs n (buildPrompt fields) := by
    intro n hn
    unfold buildPrompt
    rw [show promptHead ++ joinComma fields ++ promptTail
          = (promptHead ++ joinComma fields) ++ promptTail from rfl]
    exact strOccurs_append_right _ hn
  refine ⟨?_, ?_, ?_, ?_, ?_, ?_⟩
  · intro f hf
    unfold buildPrompt
    rw [show promptHead ++ joinComma fields ++ promptTail
          = promptHead ++ (joinComma fields ++ promptTail) from by
        simp [String.append_assoc]]
    exact strOccurs_append_right _ (strOccurs_append_left _ (joinComma_mem_occurs hf))
  · refine htail _ ?_
    unfold promptTail
    exact strOccurs_append_left _ (strOccurs_append_left _ (strOccurs_append_left _
      (strOccurs_append_left _ (strOccurs_append_left _ (strOccurs_append_left _
        (strOccurs_append_left _ (strOccurs_append_left _ (strOccurs_append_left _
          (strOccurs_append_right _ (strOccurs_self _))))))))))
  · refine htail _ ?_
    unfold promptTail
    exact strOccurs_append_left _ (strOccurs_append_left _ (strOccurs_append_left _
      (strOccurs_append_left _ (strOccurs_append_left _ (strOccurs_append_left _
        (strOccurs_append_left _ (strOccurs_append_right _ (strOccurs_self _))))))))
  · refine htail _ ?_
    unfold promptTail
    exact strOccurs_append_left _ (strOccurs_append_left _ (strOccurs_append_left _
      (strOccurs_append_left _ (strOccurs_append_left _
        (strOccurs_append_right _ (strOccurs_self _))))))
  · refine htail _ ?_
    unfold promptTail
    exact strOccurs_append_left _ (strOccurs_append_left _ (strOccurs_append_left _
      (strOccurs_append_right _ (strOccurs_self _))))
  · refine htail _ ?_
    unfold promptTail
    exact strOccurs_append_left _ (strOccurs_append_right _ (strOccurs_self _))

/-- Witness for C1 at the concrete field list of the app's default. -/
theorem prompt_lists_fields_and_mandates_witness :
    (["Invoice Number", "Customer Name", "Total Amount", "Due Date"] : List String) ≠ [] ∧
    strOccurs "Due Date" (buildPrompt ["Invoice Number", "Customer Name", "Total Amount", "Due Date"]) := by
  refine ⟨by decide, ?_⟩
  exact (prompt_lists_fields_and_mandates
    ["Invoice Number", "Customer Name", "Total Amount", "Due Date"] (by decide)).1
    "Due Date" (by decide)

/-! ## C2: failures yield no result and are shown -/

/-- C2: whenever the transport fails, or the response text after
code-fence stripping is not valid JSON (prose, empty, ...), the helper
returns no `ExtractionResult`, shows an `st.error` carrying the failure,
and the caller renders nothing instead of crashing. -/
theorem analysis_failure_no_result (env : ModelEnv) (image : Image)
    (placeholders : List String)
    (h : match env (buildPrompt placeholders) image with
         | ModelOutcome.exn _ => True
         | ModelOutcome.ok t => parse_model_text t = none) :
    (analyze_document_with_gemini env image placeholders).value = none ∧
    (analyze_document_with_gemini env image placeholders).shownError ≠ none ∧
    renderResults (analyze_document_with_gemini env image placeholders).value
      = RenderOutcome.skipped := by
  unfold analyze_document_with_gemini
  revert h
  cases env (buildPrompt placeholders) image with
  | exn e => intro _; exact ⟨rfl, by simp, rfl⟩
  | ok t =>
    intro h
    have h' : parse_model_text t = none := h
    simp [h', renderResults]

/-- Witness for C2: a prose reply, an empty reply, and a transport error. -/
theorem analysis_failure_no_result_witness :
    (analyze_document_with_gemini proseModel ⟨0⟩ ["Invoice Number"]).value = none ∧
    (analyze_document_with_gemini emptyModel ⟨0⟩ ["Invoice Number"]).value = none ∧
    (analyze_document_with_gemini exnModel ⟨0⟩ ["Invoice Number"]).value = none := by
  refine ⟨?_, ?_, ?_⟩
  · exact (analysis_failure_no_result proseModel ⟨0⟩ ["Invoice Number"]
      (show parse_model_text "Sorry, the document is unreadable." = none from rfl)).1
  · exact (analysis_failure_no_result emptyModel ⟨0⟩ ["Invoice Number"]
      (show parse_model_text "" = none from rfl)).1
  · exact (analysis_failure_no_result exnModel ⟨0⟩ ["Invoice Number"] trivial).1

/-! ## C4: the worked example round-trips -/

set_option maxRecDepth 8000 in
/-- C4: if the model returns exactly the example JSON text shown in the
prompt, the helper parses it into the mapping
`{"Invoice Number": "INV-12345", "Customer Name": "John Doe",
"Total Amount": "$999.99"}` (and shows no error). -/
theorem example_response_round_trip (image : Image) (placeholders : List String) :
    analyze_document_with_gemini (fun _ _ => ModelOutcome.ok exampleJsonText)
        image placeholders
      = ⟨some (PyJson.obj
          [("Invoice Number", PyJson.str "INV-12345"),
           ("Customer Name", PyJson.str "John Doe"),
           ("Total Amount", PyJson.str "$999.99")]), none⟩ := rfl

/-! ## C5: rasterization failure (code bug: not surfaced to the user) -/

/-- C5 (code bug evidence): with a failing rasterization backend the
pipeline does abort before any model call, produces no image, and the
stored result is cleared — but the cause goes only to the server console
(`print`), with no `st.warning`/`st.error` shown to the user: the
`st.error`-reporting first definition of `pdf_to_image` (line 29) is
shadowed by the silent second definition (line 79), and the handler's
`else` branch (lines 146–148) shows nothing either. -/
theorem rasterize_failure_console_only :
    run_extract_action failingBackend exnModel
        ⟨some (PyJson.obj [("Total Amount", PyJson.str "$1")]), some ⟨7⟩⟩
        true (some [0x6e, 0x6f, 0x74]) 0 "Invoice Number"
      = ⟨⟨none, none⟩, [], none,
         ["Error: " ++ "Unable to get page count. Is poppler installed and in PATH?"],
         1, 0⟩ := rfl

/-! ## C6: empty field list -/

/-- C6 counterexample: with the field text empty (`""`), the field list
after trimming is empty, yet the handler's outer guard
`if extract_button and uploaded_file and placeholders_text:` is falsy, so
no warning at all is produced (rasterization and extraction are still not
invoked). -/
theorem empty_text_gives_no_warning :
    parsePlaceholders "" = [] ∧
    run_extract_action failingBackend exnModel ⟨none, none⟩ true (some [1]) 0 ""
      = ⟨⟨none, none⟩, [], none, [], 0, 0⟩ := ⟨rfl, rfl⟩

/-- C6 amended: a submission whose field text yields an empty list after
trimming never invokes rasterization or extraction; the user-visible
warning is produced only when the submitted text is itself non-empty
(all-whitespace input), while an empty text makes the action do nothing
silently. -/
theorem empty_placeholders_no_pipeline (be : Backend) (env : ModelEnv)
    (st0 : SessionState) (bytes : List Nat) (page : Nat) (text : String)
    (h : parsePlaceholders text = []) :
    (∀ button file,
      (run_extract_action be env st0 button file page text).rasterizeCalls = 0 ∧
      (run_extract_action be env st0 button file page text).analyzeCalls = 0) ∧
    (text ≠ "" →
      (run_extract_action be env st0 true (some bytes) page text).warnings
        = ["Please define at least one placeholder."]) := by
  constructor
  · intro button file
    cases button <;> cases file <;>
      simp only [run_extract_action] <;>
      first
        | exact ⟨rfl, rfl⟩
        | (by_cases ht : text = "" <;> simp [ht, h])
  · intro ht
    simp only [run_extract_action]
    simp [ht, h]

/-- Witness for C6 (amended) at an all-whitespace field text. -/
theorem empty_placeholders_no_pipeline_witness :
    (run_extract_action failingBackend exnModel ⟨none, none⟩ true (some [1]) 0 "  \n  ").rasterizeCalls = 0 ∧
    (run_extract_action failingBackend exnModel ⟨none, none⟩ true (some [1]) 0 "  \n  ").warnings
      = ["Please define at least one placeholder."] := by
  refine ⟨?_, ?_⟩
  · exact ((empty_placeholders_no_pipeline failingBackend exnModel ⟨none, none⟩ [1] 0 "  \n  " rfl).1
      true (some [1])).1
  · exact (empty_placeholders_no_pipeline failingBackend exnModel ⟨none, none⟩ [1] 0 "  \n  " rfl).2
      (by decide)

/-! ## C7: the caches (code bug: the extraction cache key is empty) -/

/-- C7 (code bug evidence): because both parameters of
`analyze_document_with_gemini` are underscore-prefixed, `st.cache_data`
hashes neither, and a second call with a *different* image and a
*different* field list — whose own model reply would parse to a different
mapping — returns the first call's cached result unchanged.  (The
rasterization helper, meanwhile, has no cache at all: its decorated
definition is shadowed.) -/
theorem extraction_cache_shared_across_inputs :
    (cachedAnalyze totalModel
        (cachedAnalyze invoiceModel none ⟨1⟩ ["Invoice Number"]).2
        ⟨2⟩ ["Total Amount"]).1
      = ⟨some (PyJson.obj [("Invoice Number", PyJson.str "INV-1")]), none⟩ ∧
    (cachedAnalyze totalModel none ⟨2⟩ ["Total Amount"]).1
      = ⟨some (PyJson.obj [("Total Amount", PyJson.str "$5")]), none⟩ ∧
    ¬ (PyJson.obj [("Invoice Number", PyJson.str "INV-1")]
        = PyJson.obj [("Total Amount", PyJson.str "$5")]) := by
  refine ⟨rfl, rfl, ?_⟩
  intro h
  simp only [PyJson.obj.injEq, List.cons.injEq, Prod.mk.injEq] at h
  exact absurd h.1.1 (by decide)

/-! ## C8: the rasterizer extracts exactly the selected page -/

/-- C8: for a well-formed PDF with page list `pages` and a 1-based
selector value `k` in range, the handler passes `k - 1` as the 0-based
page number, `pdf_to_image` asks the backend for the 1-based range
`[k, k]`, and the single page at 0-based index `k - 1` comes back
(`images[0]` of the one-element range). -/
theorem rasterize_extracts_selected_page (be : Backend) (pages : List Image)
    (bytes : List Nat) (k : Nat) (h1 : 1 ≤ k) (h2 : k - 1 < pages.length)
    (hbe : be.convert bytes (page_number_of_selector k + 1) (page_number_of_selector k + 1)
           = ConvertOutcome.ok (pdfPageRange pages (page_number_of_selector k + 1)
               (page_number_of_selector k + 1))) :
    pdf_to_image be bytes (page_number_of_selector k) = (some (pages.get ⟨k - 1, h2⟩), []) := by
  unfold pdf_to_image
  rw [hbe]
  unfold pdfPageRange page_number_of_selector
  have h3 : k - 1 + 1 - 1 = k - 1 := by omega
  rw [h3, List.drop_eq_getElem_cons h2]
  rfl

/-- Witness for C8: page 2 of a three-page document. -/
theorem rasterize_extracts_selected_page_witness :
    pdf_to_image ⟨fun _ f l => ConvertOutcome.ok (pdfPageRange [⟨10⟩, ⟨11⟩, ⟨12⟩] f l)⟩
        [9, 9] (page_number_of_selector 2)
      = (some ⟨11⟩, []) := by
  exact rasterize_extracts_selected_page
    ⟨fun _ f l => ConvertOutcome.ok (pdfPageRange [⟨10⟩, ⟨11⟩, ⟨12⟩] f l)⟩
    [⟨10⟩, ⟨11⟩, ⟨12⟩] [9, 9] 2 (by decide) (by decide) rfl

/-! ## C9: any parsed JSON value is returned unchanged -/

/-- C9: when the cleaned reply parses as JSON of any shape, the helper
returns that parsed value as-is — nothing checks that it is a mapping —
and if the value is truthy and not a dict, the results renderer reaches
`.items()` on a non-dict and crashes. -/
theorem parsed_value_returned_unchanged (env : ModelEnv) (image : Image)
    (placeholders : List String) (t : String) (v : PyJson)
    (henv : env (buildPrompt placeholders) image = ModelOutcome.ok t)
    (hparse : parse_model_text t = some v) :
    (analyze_document_with_gemini env image placeholders).value = some v ∧
    (pyTruthy v = true → (∀ ms, v ≠ PyJson.obj ms) →
      renderResults (analyze_document_with_gemini env image placeholders).value
        = RenderOutcome.crashed) := by
  have hval : (analyze_document_with_gemini env image placeholders).value = some v := by
    unfold analyze_document_with_gemini
    rw [henv]
    simp [hparse]
  refine ⟨hval, ?_⟩
  intro htr hobj
  rw [hval]
  cases v with
  | obj ms => exact absurd rfl (hobj ms)
  | arr es => simp [renderResults, htr]
  | str s => simp [renderResults, htr]
  | num lex => simp [renderResults, htr]
  | boolean b => simp [renderResults, htr]
  | null => exact absurd htr (by decide)

/-- Witness for C9: a JSON array reply is returned as an array and then
crashes the renderer. -/
theorem parsed_value_returned_unchanged_witness :
    (analyze_document_with_gemini arrayModel ⟨0⟩ ["Invoice Number"]).value
      = some (PyJson.arr [PyJson.str "a"]) ∧
    renderResults (analyze_document_with_gemini arrayModel ⟨0⟩ ["Invoice Number"]).value
      = RenderOutcome.crashed := by
  have h := parsed_value_returned_unchanged arrayModel ⟨0⟩ ["Invoice Number"]
    "[\x22a\x22]" (PyJson.arr [PyJson.str "a"]) rfl
    (show parse_model_text "[\x22a\x22]" = some (PyJson.arr [PyJson.str "a"]) from rfl)
  exact ⟨h.1, h.2 rfl (fun ms hx => PyJson.noConfusion hx)⟩

/-! ## C10: a failed action overwrites the stored result -/

/-- C10: with the pipeline actually triggered (button, file, non-empty
field list), a rasterization failure stores `(None, None)` over whatever
was there, and an extraction failure stores `None` as the result while
updating the stored image to the freshly rasterized page — a prior
successful result never survives a failed action. -/
theorem failed_action_overwrites_state (be : Backend) (env : ModelEnv)
    (st0 : SessionState) (bytes : List Nat) (page : Nat) (text : String)
    (htext : text ≠ "") (hph : parsePlaceholders text ≠ []) :
    (∀ console, pdf_to_image be bytes page = (none, console) →
      (run_extract_action be env st0 true (some bytes) page text).state
        = ⟨none, none⟩) ∧
    (∀ image console, pdf_to_image be bytes page = (some image, console) →
      (analyze_document_with_gemini env image (parsePlaceholders text)).value = none →
      (run_extract_action be env st0 true (some bytes) page text).state
        = ⟨none, some image⟩) := by
  constructor
  · intro console hconv
    simp [run_extract_action, htext, hph, hconv]
  · intro image console hconv hval
    simp [run_extract_action, htext, hph, hconv, hval]

/-- Witness for C10: a prior stored success is wiped both by a
rasterization failure and by a non-JSON model reply. -/
theorem failed_action_overwrites_state_witness :
    (run_extract_action failingBackend exnModel
        ⟨some (PyJson.obj [("Total Amount", PyJson.str "$1")]), some ⟨7⟩⟩
        true (some [1]) 0 "Total Amount").state = ⟨none, none⟩ ∧
    (run_extract_action okBackend proseModel
        ⟨some (PyJson.obj [("Total Amount", PyJson.str "$1")]), some ⟨7⟩⟩
        true (some [1]) 0 "Total Amount").state = ⟨none, some ⟨3⟩⟩ := by
  constructor
  · exact (failed_action_overwrites_state failingBackend exnModel
      ⟨some (PyJson.obj [("Total Amount", PyJson.str "$1")]), some ⟨7⟩⟩
      [1] 0 "Total Amount" (by decide) (by decide)).1
      ["Error: " ++ "Unable to get page count. Is poppler installed and in PATH?"] rfl
  · exact (failed_action_overwrites_state okBackend proseModel
      ⟨some (PyJson.obj [("Total Amount", PyJson.str "$1")]), some ⟨7⟩⟩
      [1] 0 "Total Amount" (by decide) (by decide)).2
      ⟨3⟩ []
      rfl
      (show (analyze_document_with_gemini proseModel ⟨3⟩
        (parsePlaceholders "Total Amount")).value = none from rfl)
